import Mathlib

/-!
Shallow embedding of `src/main.py` (the pdfParser FastAPI service): the PDF
extraction/analysis pipeline `extract_images_from_pdf_and_analyze`, the
ollama adapters, the in-memory task dictionary `processing_tasks`, and the
async lifecycle (`process_pdf_async`, `cancel_task`).

Modelling conventions:
* Python float arithmetic in the progress formulas is modelled exactly over
  `ℚ` (all concrete inputs used below are exactly representable as doubles,
  so the model agrees with the floats there); `int()` truncation of the
  nonnegative values produced here is `pyInt`.
* The accumulated `all_text` string is kept as the ordered list of its
  `all_text += ...` pieces (`Chunk`), each rendered to the exact string the
  source appends by `Chunk.render`.
* The shared dict `processing_tasks` is an association list; the
  interleaving of the one background pipeline execution with the cancel
  endpoint is modelled by numbering the pipeline's atomic reads/writes of
  the task entry and letting the cancel endpoint fire just before a chosen
  action index (`cancelAt`), or after the run when the index is past the end.
* External collaborators (`fitz`, `pdfplumber`, `ollama.generate`) appear as
  parsed page records and oracles `String → Except String String`; a raised
  `HTTPException(code, d)` is modelled by the string `str(e) = code ++ ": " ++ d`
  that the generic `except` handler stores.
-/

namespace PdfParser

/-- One embedded raster image of a page (`fitz_page.get_images()` entry with
the outcome of building its `fitz.Pixmap`): `n` total colour components,
`alpha` alpha components (`pix.n`, `pix.alpha`), `data` the encoded payload
passed to the model, and `pixErr` the message of the exception raised while
building or encoding the pixmap, when that fails. -/
structure PDFImage where
  n : Nat
  alpha : Nat
  data : String
  pixErr : Option String
deriving DecidableEq

/-- One page as the zipped loop sees it: `plumber_page.extract_text()`
(may be `None`), `plumber_page.extract_tables()` (tables are rows of
optional cells), and the fitz image list. -/
structure PageRecord where
  text : Option String
  tables : List (List (List (Option String)))
  images : List PDFImage
deriving DecidableEq

/-- One `all_text += ...` statement of `extract_images_from_pdf_and_analyze`,
kept symbolic so that marker occurrences can be counted; `Chunk.render`
recovers the exact appended string. -/
inductive Chunk where
  | pageMarker (pageNum : Nat)
  | pageText (s : String)
  | tableMarker (tableNum : Nat)
  | tableRow (row : List (Option String))
  | blank
  | imagesHeader (count : Nat)
  | imageSection (imgNum : Nat) (analysis : String)
  | imageFailure (imgNum : Nat) (err : String)
deriving DecidableEq

/-- `str(cell) if cell else ""`: a `None` (or empty) cell renders as `""`. -/
def cellStr (c : Option String) : String :=
  match c with
  | none => ""
  | some s => s

/-- The exact string each `all_text +=` statement appends. -/
def Chunk.render : Chunk → String
  | Chunk.pageMarker p => "--- 페이지 " ++ toString p ++ " ---\n"
  | Chunk.pageText s => s ++ "\n"
  | Chunk.tableMarker t => "\n[표 " ++ toString t ++ "]\n"
  | Chunk.tableRow row => String.intercalate " | " (row.map cellStr) ++ "\n"
  | Chunk.blank => "\n"
  | Chunk.imagesHeader k => "\n[이미지 " ++ toString k ++ "개 분석 결과]\n"
  | Chunk.imageSection i a => "이미지 " ++ toString i ++ " 분석:\n" ++ a ++ "\n\n"
  | Chunk.imageFailure i e => "이미지 " ++ toString i ++ ": 분석 실패 - " ++ e ++ "\n"

/-- Is this chunk an image description section or an image failure note? -/
def Chunk.isImageChunk : Chunk → Bool
  | Chunk.imageSection _ _ => true
  | Chunk.imageFailure _ _ => true
  | _ => false

/-- `analyze_image_with_ollama`: the `ollama.generate` call is the oracle
`gen`; a raised `ModelError` is caught inside the function and turned into a
failure string, so the function itself never raises. -/
def analyze_image_with_ollama (gen : String → Except String String)
    (imageBase64 : String) : String :=
  match gen imageBase64 with
  | Except.ok r => r
  | Except.error e => "이미지 분석 실패: " ++ e

/-- The text appended for image number `idx` (0-based `img_index`): a pixmap
exception hits the inner `except` and appends a failure note; otherwise the
image is described only when `pix.n - pix.alpha < 4` (RGB or grayscale) and
silently skipped when it has four or more non-alpha components (CMYK). -/
def imageChunk (gen : String → Except String String) (idx : Nat)
    (img : PDFImage) : List Chunk :=
  match img.pixErr with
  | some e => [Chunk.imageFailure (idx + 1) e]
  | none =>
    if img.n - img.alpha < 4 then
      [Chunk.imageSection (idx + 1) (analyze_image_with_ollama gen img.data)]
    else []

/-- The model invocations made for image number `idx`: the payload is sent
to the model only on the pixmap-ok, fewer-than-4-components path. -/
def imageCall (img : PDFImage) : List String :=
  match img.pixErr with
  | some _ => []
  | none => if img.n - img.alpha < 4 then [img.data] else []

/-- Text appended by the inner image loop, `idx` the index of the first
image of the remaining list. -/
def imagesChunks (gen : String → Except String String) :
    Nat → List PDFImage → List Chunk
  | _, [] => []
  | idx, img :: rest => imageChunk gen idx img ++ imagesChunks gen (idx + 1) rest

/-- Model invocations made by the inner image loop. -/
def imagesCalls : List PDFImage → List String
  | [] => []
  | img :: rest => imageCall img ++ imagesCalls rest

/-- `if row:` — an empty row is skipped, otherwise one pipe-joined line. -/
def rowChunk (row : List (Option String)) : Option Chunk :=
  if row = [] then none else some (Chunk.tableRow row)

/-- Text appended by the table loop, `tn` the 1-based number of the first
remaining table. -/
def tableChunks : Nat → List (List (List (Option String))) → List Chunk
  | _, [] => []
  | tn, tbl :: rest =>
      (Chunk.tableMarker tn :: tbl.filterMap rowChunk) ++ [Chunk.blank]
        ++ tableChunks (tn + 1) rest

/-- `if page_text:` — `None` and the empty string append nothing. -/
def textChunk (t : Option String) : List Chunk :=
  match t with
  | none => []
  | some s => if s = "" then [] else [Chunk.pageText s]

/-- `if image_list:` — header plus the image loop, nothing when empty. -/
def imagesPart (gen : String → Except String String)
    (imgs : List PDFImage) : List Chunk :=
  if imgs = [] then []
  else Chunk.imagesHeader imgs.length :: imagesChunks gen 0 imgs

/-- Everything one iteration of the page loop appends: page marker, page
text, tables, images, trailing blank line. -/
def pageChunks (gen : String → Except String String) (pnum : Nat)
    (p : PageRecord) : List Chunk :=
  Chunk.pageMarker pnum ::
    (textChunk p.text ++ tableChunks 1 p.tables ++ imagesPart gen p.images
      ++ [Chunk.blank])

/-- The whole page loop, `pnum` the 1-based number of the first remaining
page. -/
def docChunksAux (gen : String → Except String String) :
    Nat → List PageRecord → List Chunk
  | _, [] => []
  | pnum, p :: rest => pageChunks gen pnum p ++ docChunksAux gen (pnum + 1) rest

/-- All text pieces accumulated into `all_text`, in order. -/
def docChunks (gen : String → Except String String)
    (doc : List PageRecord) : List Chunk :=
  docChunksAux gen 1 doc

/-- `all_text.strip()`: the rendered, concatenated, trimmed text. -/
def extractedText (gen : String → Except String String)
    (doc : List PageRecord) : String :=
  (String.join ((docChunks gen doc).map Chunk.render)).trim

/-- The pure value returned by `extract_images_from_pdf_and_analyze`
(text and page count); its registry writes and cancellation checks are
modelled separately by `extractEvents` / `runExtract`. -/
def extract_images_from_pdf_and_analyze
    (gen : String → Except String String) (doc : List PageRecord) :
    String × Nat :=
  (extractedText gen doc, doc.length)

/-- The page-boundary markers occurring in a chunk list, in order. -/
def pageMarkersOf : List Chunk → List Nat
  | [] => []
  | Chunk.pageMarker p :: rest => p :: pageMarkersOf rest
  | _ :: rest => pageMarkersOf rest

/-- Python `int()` on the (always nonnegative) progress floats: truncation,
which for nonnegative rationals is `num / den`. -/
def pyInt (q : ℚ) : Nat := q.num.toNat / q.den

/-- `int(10 + (page_num / page_count) * 60)` — the 10-70 text range. -/
def pageTextProgress (pageCount pageNum : Nat) : Nat :=
  pyInt (10 + ((pageNum : ℚ) / (pageCount : ℚ)) * 60)

/-- `int(70 + ((page_num - 1) / page_count + (img_index + 1) / len(image_list) / page_count) * 20)`
— the 70-90 image range. `imgIndex` is the 0-based `img_index`. -/
def imageProgress (pageCount pageNum imgCount imgIndex : Nat) : Nat :=
  pyInt (70 + (((pageNum : ℚ) - 1) / (pageCount : ℚ)
      + ((imgIndex : ℚ) + 1) / (imgCount : ℚ) / (pageCount : ℚ)) * 20)

/-- `f"PDF 문서 로드 완료 ({page_count}페이지)"` -/
def loadStep (pageCount : Nat) : String :=
  "PDF 문서 로드 완료 (" ++ toString pageCount ++ "페이지)"

/-- `f"페이지 {page_num}/{page_count} 텍스트 추출 중"` -/
def pageStep (pageNum pageCount : Nat) : String :=
  "페이지 " ++ toString pageNum ++ "/" ++ toString pageCount ++ " 텍스트 추출 중"

/-- `f"페이지 {page_num} 이미지 {img_index + 1}/{len(image_list)} 분석 중"` -/
def imageStep (pageNum imgIndex imgCount : Nat) : String :=
  "페이지 " ++ toString pageNum ++ " 이미지 " ++ toString (imgIndex + 1)
    ++ "/" ++ toString imgCount ++ " 분석 중"

/-- One atomic interaction of the pipeline with its `processing_tasks`
entry: a progress/current_step write, or a cancellation checkpoint (a read
of `status` that raises `Exception("Task was cancelled")` when it sees
`"cancelled"`). -/
inductive PipeEvent where
  | write (progress : Nat) (stepStr : String)
  | checkpoint
deriving DecidableEq

/-- The registry interactions of the inner image loop of one page
(`img_index`-th first): checkpoint, then the image-progress write, for
every listed image (including those later skipped or failing). -/
def imageEvents (pageCount pageNum imgCount : Nat) :
    Nat → List PDFImage → List PipeEvent
  | _, [] => []
  | idx, _ :: rest =>
      PipeEvent.checkpoint ::
        PipeEvent.write (imageProgress pageCount pageNum imgCount idx)
          (imageStep pageNum idx imgCount) ::
        imageEvents pageCount pageNum imgCount (idx + 1) rest

/-- The registry interactions of one page-loop iteration: checkpoint, the
text-extraction progress write, then the image loop. -/
def pageEvents (pageCount pageNum : Nat) (p : PageRecord) : List PipeEvent :=
  PipeEvent.checkpoint ::
    PipeEvent.write (pageTextProgress pageCount pageNum)
      (pageStep pageNum pageCount) ::
    imageEvents pageCount pageNum p.images.length 0 p.images

/-- The page loop's registry interactions, pages numbered from `pnum`. -/
def extractEventsAux (pageCount : Nat) : Nat → List PageRecord → List PipeEvent
  | _, [] => []
  | pnum, p :: rest =>
      pageEvents pageCount pnum p ++ extractEventsAux pageCount (pnum + 1) rest

/-- All registry interactions of `extract_images_from_pdf_and_analyze` when
a `task_id` is given: the progress-10 load write, the page loop, and the
final progress-90 "PDF 분석 완료" write. -/
def extractEvents (doc : List PageRecord) : List PipeEvent :=
  PipeEvent.write 10 (loadStep doc.length) ::
    (extractEventsAux doc.length 1 doc
      ++ [PipeEvent.write 90 "PDF 분석 완료"])

/-- The progress values of a list of events, in write order. -/
def writeValues (evs : List PipeEvent) : List Nat :=
  evs.filterMap fun e =>
    match e with
    | PipeEvent.write p _ => some p
    | PipeEvent.checkpoint => none

/-- `PDFAnalysisResponse`. -/
structure PDFAnalysisResponse where
  filename : String
  text_content : String
  analysis : String
  model_used : String
  page_count : Nat
  task_id : Option String
deriving DecidableEq

/-- One `processing_tasks[task_id]` record. -/
structure Task where
  task_id : String
  status : String
  progress : Nat
  current_step : String
  result : Option PDFAnalysisResponse
  error : Option String
  filename : String
  model : String
deriving DecidableEq

/-- The record inserted by `analyze_pdf_async` (lines 351-360). -/
def initTask (task_id filename model : String) : Task :=
  { task_id := task_id, status := "processing", progress := 0,
    current_step := "PDF 분석 시작", result := none, error := none,
    filename := filename, model := model }

/-- The cancel endpoint's effect on one present task record (lines
425-429): left unchanged when the status is already terminal (the endpoint
raises HTTP 400 before mutating), otherwise status and current_step are
set. -/
def applyCancel (t : Task) : Task :=
  if t.status ∈ ["completed", "failed", "cancelled"] then t
  else { t with status := "cancelled", current_step := "사용자에 의해 취소됨" }

/-- The `except` handler of `process_pdf_async` (lines 403-409). -/
def failedUpdate (err : String) (t : Task) : Task :=
  { t with
    status := "failed", progress := 0, current_step := "분석 실패",
    error := some err }

/-- The completion update of `process_pdf_async` (lines 396-401). -/
def completedUpdate (res : PDFAnalysisResponse) (t : Task) : Task :=
  { t with
    status := "completed", progress := 100,
    current_step := "분석 완료", result := some res }

/-- Background-run state: the task record plus the number of atomic
registry actions the pipeline has performed so far. -/
structure RS where
  t : Task
  c : Nat

/-- Fire the concurrent cancel endpoint when it is scheduled right before
the pipeline's next (i.e. `s.c`-th) atomic action. -/
def beforeAction (cancelAt : Option Nat) (s : RS) : RS :=
  if cancelAt = some s.c then { s with t := applyCancel s.t } else s

/-- Run the extraction stage's registry interactions.  `some msg` in the
second component is the raised `Exception("Task was cancelled")`, which
`extract_images_from_pdf_and_analyze`'s own `except` re-raises unchanged
(its message contains `"cancelled"`, lines 207-209). -/
def runExtract (cancelAt : Option Nat) :
    List PipeEvent → RS → RS × Option String
  | [], s => (s, none)
  | PipeEvent.checkpoint :: rest, s =>
      let s' := beforeAction cancelAt s
      if s'.t.status = "cancelled" then
        ({ t := s'.t, c := s'.c + 1 }, some "Task was cancelled")
      else runExtract cancelAt rest { t := s'.t, c := s'.c + 1 }
  | PipeEvent.write p stepStr :: rest, s =>
      let s' := beforeAction cancelAt s
      runExtract cancelAt rest
        { t := { s'.t with progress := p, current_step := stepStr }, c := s'.c + 1 }

/-- A cancel scheduled after the pipeline's last action fires once the run
is over (and, like the endpoint, is a no-op on a terminal status). -/
def finalize (cancelAt : Option Nat) (s : RS) : Task :=
  match cancelAt with
  | none => s.t
  | some j => if s.c ≤ j then applyCancel s.t else s.t

/-- The default summarization prompt of `analyze_text_with_ollama`. -/
def defaultAnalysisPrompt (text : String) : String :=
  "다음 텍스트를 분석하고 요약해주세요. 주요 내용, 핵심 포인트, 그리고 중요한 정보들을 한국어로 정리해주세요:\n\n"
    ++ text

/-- `analyze_text_with_ollama`: builds the prompt (the custom prompt, when
given and non-empty, replaces the default one — and then the extracted text
is not part of the prompt at all), calls `ollama.generate` (`gen`), and
wraps a failure into the `HTTPException(500, ...)` detail. -/
def analyze_text_with_ollama (gen : String → String → Except String String)
    (text model_name : String) (prompt : Option String) :
    Except String String :=
  let p :=
    match prompt with
    | none => defaultAnalysisPrompt text
    | some s => if s = "" then defaultAnalysisPrompt text else s
  match gen model_name p with
  | Except.ok r => Except.ok r
  | Except.error e => Except.error ("Failed to analyze text with Ollama: " ++ e)

/-- `process_pdf_async` (lines 371-409), threading the task record through
the pipeline's atomic registry actions with a concurrent cancel scheduled
before action number `cancelAt`:
extraction events, then — on the exception path — the failed update the
generic `except` performs with `str(e)`; on the normal path the
`status == "cancelled"` check (line 377), the "AI 분석 중"/90 write, the
summarization call (a suspension point: the cancel may fire between it and
the completion write), and the unconditional completion or failure update.
An `HTTPException(500, d)` from summarization is stored as
`str(e) = "500: " ++ d`. -/
def process_pdf_async (imgGen : String → Except String String)
    (txtGen : String → String → Except String String)
    (doc : List PageRecord) (fn model : String) (custom : Option String)
    (cancelAt : Option Nat) (t0 : Task) : Task :=
  match runExtract cancelAt (extractEvents doc) { t := t0, c := 0 } with
  | (s1, some emsg) =>
      let s2 := beforeAction cancelAt s1
      finalize cancelAt { t := failedUpdate emsg s2.t, c := s2.c + 1 }
  | (s1, none) =>
      let text := extractedText imgGen doc
      let s2 := beforeAction cancelAt s1
      if s2.t.status = "cancelled" then
        finalize cancelAt { t := s2.t, c := s2.c + 1 }
      else
        let s3 := beforeAction cancelAt { t := s2.t, c := s2.c + 1 }
        let s3b : RS :=
          { t := { s3.t with current_step := "AI 분석 중", progress := 90 },
            c := s3.c + 1 }
        match analyze_text_with_ollama txtGen text model custom with
        | Except.error d =>
            let s4 := beforeAction cancelAt s3b
            finalize cancelAt
              { t := failedUpdate ("500: " ++ d) s4.t, c := s4.c + 1 }
        | Except.ok analysis =>
            let s4 := beforeAction cancelAt s3b
            finalize cancelAt
              { t := completedUpdate
                  { filename := fn, text_content := text, analysis := analysis,
                    model_used := model, page_count := doc.length,
                    task_id := some t0.task_id } s4.t,
                c := s4.c + 1 }

/-- The registry: the `processing_tasks` dict as an association list with
unique keys. -/
abbrev Registry := List (String × Task)

/-- `processing_tasks.get(task_id)` / `task_id in processing_tasks`. -/
def lookupTask : Registry → String → Option Task
  | [], _ => none
  | e :: rest, id => if e.1 = id then some e.2 else lookupTask rest id

/-- Overwrite the entry for `id` (present keys only are changed). -/
def updateTask (reg : Registry) (id : String) (t : Task) : Registry :=
  reg.map fun e => if e.1 = id then (e.1, t) else e

/-- An HTTP endpoint outcome: a JSON-ish payload or an `HTTPException`. -/
inductive ApiResult (α : Type) where
  | ok (a : α)
  | httpError (code : Nat) (detail : String)
deriving DecidableEq

/-- The `POST /tasks/.../cancel` endpoint `cancel_task` (lines 420-431):
404 when absent, 400 (and no mutation) when the status is already one of
completed/failed/cancelled, otherwise sets status and current_step. -/
def cancel_task (reg : Registry) (id : String) : Registry × ApiResult String :=
  match lookupTask reg id with
  | none => (reg, ApiResult.httpError 404 "Task not found")
  | some t =>
      if t.status ∈ ["completed", "failed", "cancelled"] then
        (reg, ApiResult.httpError 400 "Task cannot be cancelled")
      else
        (updateTask reg id
            { t with status := "cancelled", current_step := "사용자에 의해 취소됨" },
          ApiResult.ok "Task cancelled successfully")

/-- The progress update the pipeline performs on the registry (lines
130-133 and 141-144): the two bare dict writes
`processing_tasks[task_id]["progress"] = ...` and
`... ["current_step"] = ...`.  They are unguarded: an absent key raises
`KeyError`, and a present task is overwritten whatever its status is. -/
def updateProgressWrite (reg : Registry) (id : String) (prog : Nat)
    (stepStr : String) : Except String Registry :=
  match lookupTask reg id with
  | none => Except.error "KeyError"
  | some t =>
      Except.ok (updateTask reg id
        { t with progress := prog, current_step := stepStr })

/-! Concrete fixtures used by the closed theorems below. -/

/-- An image-description oracle that always succeeds. -/
def okImgGen : String → Except String String := fun _ => Except.ok "그림 설명"

/-- A summarization oracle that always succeeds. -/
def okTxtGen : String → String → Except String String := fun _ _ => Except.ok "요약"

/-- A summarization oracle that always raises a ModelError. -/
def failTxtGen : String → String → Except String String :=
  fun _ _ => Except.error "model down"

def c1page : PageRecord := { text := some "hello", tables := [], images := [] }

def c1doc : List PageRecord := [c1page]

/-- An ordinary RGB image (3 colour components, no alpha). -/
def c2img : PDFImage := { n := 3, alpha := 0, data := "img1png", pixErr := none }

/-- Two pages, one image on page 1 and none on page 2. -/
def c2doc : List PageRecord :=
  [ { text := some "page one", tables := [], images := [c2img] },
    { text := some "page two", tables := [], images := [] } ]

/-- A task already in the terminal status "cancelled". -/
def c4task : Task :=
  { initTask "x" "f.pdf" "m" with status := "cancelled", progress := 55 }

def c5reg : Registry := [("a", initTask "a" "f.pdf" "m")]

def c9reg : Registry := [("t1", initTask "t1" "a.pdf" "m")]

/-- Two pages without images (page 1 also has a table). -/
def c6doc : List PageRecord :=
  [ { text := some "alpha", tables := [[[some "h1", some "h2"], [none, some "v"]]],
      images := [] },
    { text := none, tables := [], images := [] } ]

def c7wImg : PDFImage := { n := 3, alpha := 0, data := "imgw", pixErr := none }

def c7wDoc : List PageRecord :=
  [ { text := some "t", tables := [], images := [c7wImg] } ]

/-- A CMYK image: `pix.n - pix.alpha = 4`. -/
def cmykImg : PDFImage := { n := 4, alpha := 0, data := "cmyk1", pixErr := none }

def c7cxDoc : List PageRecord :=
  [ { text := some "p", tables := [], images := [cmykImg] } ]

def c10rgb : PDFImage := { n := 3, alpha := 0, data := "rgb", pixErr := none }

def c10cmyk : PDFImage := { n := 5, alpha := 1, data := "cmyk", pixErr := none }

/-! Helper lemmas. -/

/-- When the task is in status "processing" and no concurrent cancel fires
during the extraction events, extraction runs to completion: no
cancellation exception, the action counter advances by the number of
events, and status/result/error are untouched (the events write only
progress and current_step). -/
theorem runExtract_complete (cancelAt : Option Nat) (evs : List PipeEvent) (s : RS)
    (hs : s.t.status = "processing")
    (hc : ∀ j, cancelAt = some j → s.c + evs.length ≤ j) :
    ∃ t', runExtract cancelAt evs s = ({ t := t', c := s.c + evs.length }, none) ∧
      t'.status = "processing" ∧ t'.result = s.t.result ∧ t'.error = s.t.error := by
  induction evs generalizing s with
  | nil =>
      exact ⟨s.t, by simp [runExtract], hs, rfl, rfl⟩
  | cons e rest ih =>
      have hne : ¬ cancelAt = some s.c := by
        intro h
        have := hc s.c h
        simp only [List.length_cons] at this
        omega
      have hb : beforeAction cancelAt s = s := by
        simp [beforeAction, hne]
      cases e with
      | checkpoint =>
          have hnc : ¬ s.t.status = "cancelled" := by rw [hs]; decide
          have hstep : runExtract cancelAt (PipeEvent.checkpoint :: rest) s
              = runExtract cancelAt rest { t := s.t, c := s.c + 1 } := by
            simp [runExtract, hb, hnc]
          obtain ⟨t', hrun, h1, h2, h3⟩ :=
            ih { t := s.t, c := s.c + 1 } hs
              (by
                intro j hj
                have := hc j hj
                simp only [List.length_cons] at this ⊢
                omega)
          refine ⟨t', ?_, h1, h2, h3⟩
          rw [hstep, hrun]
          simp only [List.length_cons]
          congr 2
          omega
      | write p stepStr =>
          have hstep : runExtract cancelAt (PipeEvent.write p stepStr :: rest) s
              = runExtract cancelAt rest
                  { t := { s.t with progress := p, current_step := stepStr },
                    c := s.c + 1 } := by
            simp [runExtract, hb]
          obtain ⟨t', hrun, h1, h2, h3⟩ :=
            ih { t := { s.t with progress := p, current_step := stepStr }, c := s.c + 1 }
              (by simpa using hs)
              (by
                intro j hj
                have := hc j hj
                simp only [List.length_cons] at this ⊢
                omega)
          refine ⟨t', ?_, h1, by simpa using h2, by simpa using h3⟩
          rw [hstep, hrun]
          simp only [List.length_cons]
          congr 2
          omega

/-- A cancel-free async run whose summarization succeeds completes the
task: status "completed", progress 100, the stored result, and an
untouched error field. -/
theorem run_async_ok (imgGen : String → Except String String)
    (txtGen : String → String → Except String String)
    (doc : List PageRecord) (fn model : String) (custom : Option String)
    (t0 : Task) (a : String)
    (hs : t0.status = "processing")
    (ha : analyze_text_with_ollama txtGen (extractedText imgGen doc) model custom
      = Except.ok a) :
    (process_pdf_async imgGen txtGen doc fn model custom none t0).status = "completed" ∧
    (process_pdf_async imgGen txtGen doc fn model custom none t0).progress = 100 ∧
    (process_pdf_async imgGen txtGen doc fn model custom none t0).result =
      some { filename := fn, text_content := extractedText imgGen doc, analysis := a,
             model_used := model, page_count := doc.length, task_id := some t0.task_id } ∧
    (process_pdf_async imgGen txtGen doc fn model custom none t0).error = t0.error := by
  obtain ⟨t', hrun, h1, h2, h3⟩ :=
    runExtract_complete none (extractEvents doc) ⟨t0, 0⟩ hs
      (fun j hj => Option.noConfusion hj)
  have hnc : ¬ t'.status = "cancelled" := by rw [h1]; decide
  have hE : process_pdf_async imgGen txtGen doc fn model custom none t0 =
      completedUpdate
        { filename := fn, text_content := extractedText imgGen doc, analysis := a,
          model_used := model, page_count := doc.length, task_id := some t0.task_id }
        { t' with current_step := "AI 분석 중", progress := 90 } := by
    unfold process_pdf_async
    rw [hrun]
    simp [beforeAction, finalize, hnc, ha]
  rw [hE]
  exact ⟨rfl, rfl, rfl, by simpa [completedUpdate] using h3⟩

/-- A cancel-free async run whose summarization raises a ModelError fails
the task: status "failed", progress reset to 0, the stored `str(e)` of the
`HTTPException(500, ...)`, and an untouched result field. -/
theorem run_async_err (imgGen : String → Except String String)
    (txtGen : String → String → Except String String)
    (doc : List PageRecord) (fn model : String) (custom : Option String)
    (t0 : Task) (d : String)
    (hs : t0.status = "processing")
    (ha : analyze_text_with_ollama txtGen (extractedText imgGen doc) model custom
      = Except.error d) :
    (process_pdf_async imgGen txtGen doc fn model custom none t0).status = "failed" ∧
    (process_pdf_async imgGen txtGen doc fn model custom none t0).progress = 0 ∧
    (process_pdf_async imgGen txtGen doc fn model custom none t0).result = t0.result ∧
    (process_pdf_async imgGen txtGen doc fn model custom none t0).error =
      some ("500: " ++ d) := by
  obtain ⟨t', hrun, h1, h2, h3⟩ :=
    runExtract_complete none (extractEvents doc) ⟨t0, 0⟩ hs
      (fun j hj => Option.noConfusion hj)
  have hnc : ¬ t'.status = "cancelled" := by rw [h1]; decide
  have hE : process_pdf_async imgGen txtGen doc fn model custom none t0 =
      failedUpdate ("500: " ++ d)
        { t' with current_step := "AI 분석 중", progress := 90 } := by
    unfold process_pdf_async
    rw [hrun]
    simp [beforeAction, finalize, hnc, ha]
  rw [hE]
  exact ⟨rfl, rfl, by simpa [failedUpdate] using h2, rfl⟩

/-- Overwriting a present key makes lookup return the new record. -/
theorem lookup_updateTask (reg : Registry) (id : String) (t t' : Task)
    (h : lookupTask reg id = some t) :
    lookupTask (updateTask reg id t') id = some t' := by
  induction reg with
  | nil => simp [lookupTask] at h
  | cons e rest ih =>
      by_cases he : e.1 = id
      · simp [lookupTask, updateTask, he]
      · simp only [lookupTask, if_neg he] at h
        simp only [updateTask, List.map_cons, if_neg he, lookupTask, he, if_false]
        exact ih h

theorem pageMarkersOf_append (a b : List Chunk) :
    pageMarkersOf (a ++ b) = pageMarkersOf a ++ pageMarkersOf b := by
  induction a with
  | nil => rfl
  | cons c rest ih => cases c <;> simp [pageMarkersOf, ih]

theorem pageMarkersOf_textChunk (t : Option String) :
    pageMarkersOf (textChunk t) = [] := by
  cases t with
  | none => rfl
  | some s => by_cases h : s = "" <;> simp [textChunk, h, pageMarkersOf]

theorem pageMarkersOf_rowChunks (tbl : List (List (Option String))) :
    pageMarkersOf (tbl.filterMap rowChunk) = [] := by
  induction tbl with
  | nil => rfl
  | cons r rest ih =>
      by_cases h : r = [] <;>
        simp [List.filterMap_cons, rowChunk, h, pageMarkersOf, ih]

theorem pageMarkersOf_tableChunks (tbls : List (List (List (Option String)))) :
    ∀ tn, pageMarkersOf (tableChunks tn tbls) = [] := by
  induction tbls with
  | nil => intro tn; rfl
  | cons tbl rest ih =>
      intro tn
      simp [tableChunks, pageMarkersOf_append, pageMarkersOf,
        pageMarkersOf_rowChunks, ih]

theorem pageMarkersOf_imageChunk (gen : String → Except String String)
    (idx : Nat) (img : PDFImage) :
    pageMarkersOf (imageChunk gen idx img) = [] := by
  cases h : img.pixErr with
  | some e => simp [imageChunk, h, pageMarkersOf]
  | none =>
      by_cases h4 : img.n - img.alpha < 4 <;> simp [imageChunk, h, h4, pageMarkersOf]

theorem pageMarkersOf_imagesChunks (gen : String → Except String String)
    (imgs : List PDFImage) :
    ∀ idx, pageMarkersOf (imagesChunks gen idx imgs) = [] := by
  induction imgs with
  | nil => intro idx; rfl
  | cons img rest ih =>
      intro idx
      simp [imagesChunks, pageMarkersOf_append, pageMarkersOf_imageChunk, ih]

theorem pageMarkersOf_imagesPart (gen : String → Except String String)
    (imgs : List PDFImage) :
    pageMarkersOf (imagesPart gen imgs) = [] := by
  unfold imagesPart
  split
  · rfl
  · simp [pageMarkersOf, pageMarkersOf_imagesChunks]

theorem pageMarkersOf_pageChunks (gen : String → Except String String)
    (pnum : Nat) (p : PageRecord) :
    pageMarkersOf (pageChunks gen pnum p) = [pnum] := by
  simp [pageChunks, pageMarkersOf, pageMarkersOf_append, pageMarkersOf_textChunk,
    pageMarkersOf_tableChunks, pageMarkersOf_imagesPart]

/-- The page loop emits exactly one marker per page, numbered in order. -/
theorem pageMarkersOf_docChunksAux (gen : String → Except String String)
    (ps : List PageRecord) :
    ∀ k, pageMarkersOf (docChunksAux gen k ps) = List.range' k ps.length := by
  induction ps with
  | nil => intro k; rfl
  | cons p rest ih =>
      intro k
      simp [docChunksAux, pageMarkersOf_append, pageMarkersOf_pageChunks, ih,
        List.range'_succ]

theorem isImageChunk_textChunk (t : Option String) :
    ∀ c ∈ textChunk t, c.isImageChunk = false := by
  intro c hc
  cases t with
  | none => simp [textChunk] at hc
  | some s =>
      by_cases h : s = ""
      · simp [textChunk, h] at hc
      · simp [textChunk, h] at hc
        subst hc
        rfl

theorem isImageChunk_tableChunks (tbls : List (List (List (Option String)))) :
    ∀ tn, ∀ c ∈ tableChunks tn tbls, c.isImageChunk = false := by
  induction tbls with
  | nil => intro tn c hc; simp [tableChunks] at hc
  | cons tbl rest ih =>
      intro tn c hc
      simp only [tableChunks, List.mem_append, List.mem_cons] at hc
      rcases hc with ((h | h) | h) | h
      · subst h; rfl
      · obtain ⟨r, _, hr⟩ := List.mem_filterMap.mp h
        unfold rowChunk at hr
        by_cases hre : r = []
        · simp [hre] at hr
        · simp [hre] at hr
          subst hr
          rfl
      · simp at h; subst h; rfl
      · exact ih (tn + 1) c h

theorem noImageChunks_pageChunks (gen : String → Except String String)
    (pnum : Nat) (p : PageRecord) (h : p.images = []) :
    ∀ c ∈ pageChunks gen pnum p, c.isImageChunk = false := by
  intro c hc
  simp only [pageChunks, imagesPart, h, if_pos, List.mem_cons, List.mem_append,
    List.not_mem_nil, or_false, false_or, List.mem_singleton] at hc
  rcases hc with h1 | (h2 | h3) | h4
  · subst h1; rfl
  · exact isImageChunk_textChunk p.text c h2
  · exact isImageChunk_tableChunks p.tables 1 c h3
  · subst h4; rfl

theorem noImageChunks_docChunksAux (gen : String → Except String String)
    (ps : List PageRecord) (h : ∀ p ∈ ps, p.images = []) :
    ∀ k, ∀ c ∈ docChunksAux gen k ps, c.isImageChunk = false := by
  induction ps with
  | nil => intro k c hc; simp [docChunksAux] at hc
  | cons p rest ih =>
      intro k c hc
      simp only [docChunksAux, List.mem_append] at hc
      rcases hc with h1 | h2
      · exact noImageChunks_pageChunks gen k p (h p (by simp)) c h1
      · exact ih (fun q hq => h q (by simp [hq])) (k + 1) c h2

/-- A chunk produced for the `l`-th image of a list is in the list's image
loop output. -/
theorem mem_imagesChunks (gen : String → Except String String)
    (imgs : List PDFImage) :
    ∀ b l img, imgs[l]? = some img →
      ∀ c ∈ imageChunk gen (b + l) img, c ∈ imagesChunks gen b imgs := by
  induction imgs with
  | nil => intro b l img h; simp at h
  | cons hd tl ih =>
      intro b l img h c hc
      cases l with
      | zero =>
          simp at h
          subst h
          simp only [imagesChunks, List.mem_append]
          left
          simpa using hc
      | succ l =>
          simp at h
          have hb : b + (l + 1) = b + 1 + l := by omega
          rw [hb] at hc
          simp only [imagesChunks, List.mem_append]
          right
          exact ih (b + 1) l img h c hc

theorem mem_pageChunks_of_imagesChunks (gen : String → Except String String)
    (pnum : Nat) (p : PageRecord) (c : Chunk)
    (hc : c ∈ imagesChunks gen 0 p.images) : c ∈ pageChunks gen pnum p := by
  have hne : ¬ p.images = [] := by
    intro h
    rw [h] at hc
    simp [imagesChunks] at hc
  simp only [pageChunks, imagesPart, hne, if_neg, List.mem_cons, List.mem_append]
  tauto

theorem mem_docChunksAux_of_page (gen : String → Except String String)
    (ps : List PageRecord) :
    ∀ k j p, ps[j]? = some p →
      ∀ c ∈ pageChunks gen (k + j) p, c ∈ docChunksAux gen k ps := by
  induction ps with
  | nil => intro k j p h; simp at h
  | cons hd tl ih =>
      intro k j p h c hc
      cases j with
      | zero =>
          simp at h
          subst h
          simp only [docChunksAux, List.mem_append]
          left
          simpa using hc
      | succ j =>
          simp at h
          have hb : k + (j + 1) = k + 1 + j := by omega
          rw [hb] at hc
          simp only [docChunksAux, List.mem_append]
          right
          exact ih (k + 1) j p h c hc

theorem imagesChunks_append (gen : String → Except String String)
    (xs ys : List PDFImage) :
    ∀ b, imagesChunks gen b (xs ++ ys) =
      imagesChunks gen b xs ++ imagesChunks gen (b + xs.length) ys := by
  induction xs with
  | nil => intro b; simp [imagesChunks]
  | cons x xt ih =>
      intro b
      have hb : b + (xt.length + 1) = b + 1 + xt.length := by omega
      simp only [List.cons_append, imagesChunks, List.append_eq, List.length_cons, hb,
        ih (b + 1)]
      rw [List.append_assoc]

theorem imagesCalls_append (xs ys : List PDFImage) :
    imagesCalls (xs ++ ys) = imagesCalls xs ++ imagesCalls ys := by
  induction xs with
  | nil => simp [imagesCalls]
  | cons x xt ih =>
      simp only [List.cons_append, imagesCalls, List.append_eq, ih]
      rw [List.append_assoc]

/-- `int(10 + (1/2)*60) = 40`. -/
theorem pageTextProgress_two_one : pageTextProgress 2 1 = 40 := by
  unfold pageTextProgress pyInt
  norm_num
  decide

/-- `int(70 + (0/2 + 1/1/2)*20) = 80`. -/
theorem imageProgress_two_one : imageProgress 2 1 1 0 = 80 := by
  unfold imageProgress pyInt
  norm_num
  decide

/-- `int(10 + (2/2)*60) = 70`. -/
theorem pageTextProgress_two_two : pageTextProgress 2 2 = 70 := by
  unfold pageTextProgress pyInt
  norm_num
  decide

/-! Claim theorems. -/

/-- C1: the claim says a task cancelled before the pipeline's first
checkpoint ends in status Cancelled with `result` and `error` absent.  The
code instead lets the cancellation exception reach `process_pdf_async`'s
generic `except` handler, which overwrites the terminal Cancelled status
with "failed" and stores "Task was cancelled" in `error`.  This theorem
evaluates the code at the failing input: a 1-page image-free document whose
task is cancelled before the pipeline's first action (`cancelAt = some 0`). -/
theorem C1_cancelled_task_ends_failed :
    (process_pdf_async okImgGen okTxtGen c1doc "f.pdf" "m" none (some 0)
        (initTask "tid" "f.pdf" "m")).status = "failed" ∧
    (process_pdf_async okImgGen okTxtGen c1doc "f.pdf" "m" none (some 0)
        (initTask "tid" "f.pdf" "m")).error = some "Task was cancelled" ∧
    (process_pdf_async okImgGen okTxtGen c1doc "f.pdf" "m" none (some 0)
        (initTask "tid" "f.pdf" "m")).result = none := by
  refine ⟨?_, ?_, ?_⟩ <;> decide

/-- C2: the claim says progress is monotonically non-decreasing while
Processing, for any page count and distribution of images.  On a 2-page
document with one image on page 1, the pipeline's progress writes are
10 (load), 40 (page-1 text), 80 (page-1 image), 70 (page-2 text), 90
(done): the per-image writes in the 70-90 band interleave with the next
page's 10-70 text write, so the sequence decreases from 80 to 70. -/
theorem C2_progress_not_monotone :
    writeValues (extractEvents c2doc) = [10, 40, 80, 70, 90] ∧
    ¬ List.Chain' (fun a b => a ≤ b) (writeValues (extractEvents c2doc)) := by
  have h : writeValues (extractEvents c2doc) = [10, 40, 80, 70, 90] := by
    simp [c2doc, c2img, extractEvents, extractEventsAux, pageEvents, imageEvents,
      writeValues, List.filterMap, pageTextProgress_two_one, imageProgress_two_one,
      pageTextProgress_two_two]
  refine ⟨h, ?_⟩
  rw [h]
  simp [List.chain'_cons]

/-- C3 counterexample: on a 1-page image-free document (whose extraction
stage has 4 registry actions, so the post-extraction cancelled-check is
action 4, the 90-write action 5 and the completion write action 6), a
cancel that fires between the pipeline's last cancellation check and the
completion write (`cancelAt = some 6`) does NOT leave the task Cancelled:
the completion write overwrites it to "completed" with a result, contrary
to the claim that the completion is ignored. -/
theorem C3_counterexample :
    (process_pdf_async okImgGen okTxtGen c1doc "f.pdf" "m" none (some 6)
        (initTask "tid" "f.pdf" "m")).status = "completed" ∧
    ¬ (process_pdf_async okImgGen okTxtGen c1doc "f.pdf" "m" none (some 6)
        (initTask "tid" "f.pdf" "m")).status = "cancelled" ∧
    ((process_pdf_async okImgGen okTxtGen c1doc "f.pdf" "m" none (some 6)
        (initTask "tid" "f.pdf" "m")).result).isSome = true := by
  refine ⟨?_, ?_, ?_⟩ <;> decide

/-- C3 (amended): when the task is moved to Cancelled after the pipeline's
last cancellation check but before the completion write (the cancel fires
right before the completion write, action `(extractEvents doc).length + 2`),
the completion write is applied anyway: the task ends "completed" with
progress 100 and the result stored — last write wins, cancellation loses
this race. -/
theorem C3_completion_overwrites_cancel (imgGen : String → Except String String)
    (txtGen : String → String → Except String String)
    (doc : List PageRecord) (fn model : String) (custom : Option String)
    (t0 : Task) (a : String)
    (hs : t0.status = "processing")
    (ha : analyze_text_with_ollama txtGen (extractedText imgGen doc) model custom
      = Except.ok a) :
    (process_pdf_async imgGen txtGen doc fn model custom
        (some ((extractEvents doc).length + 2)) t0).status = "completed" ∧
    (process_pdf_async imgGen txtGen doc fn model custom
        (some ((extractEvents doc).length + 2)) t0).progress = 100 ∧
    (process_pdf_async imgGen txtGen doc fn model custom
        (some ((extractEvents doc).length + 2)) t0).result =
      some { filename := fn, text_content := extractedText imgGen doc, analysis := a,
             model_used := model, page_count := doc.length, task_id := some t0.task_id } := by
  obtain ⟨t', hrun, h1, h2, h3⟩ :=
    runExtract_complete (some ((extractEvents doc).length + 2)) (extractEvents doc)
      ⟨t0, 0⟩ hs
      (by
        intro j hj
        injection hj with h
        show 0 + (extractEvents doc).length ≤ j
        omega)
  have hnc : ¬ t'.status = "cancelled" := by rw [h1]; decide
  have hE : process_pdf_async imgGen txtGen doc fn model custom
      (some ((extractEvents doc).length + 2)) t0 =
      completedUpdate
        { filename := fn, text_content := extractedText imgGen doc, analysis := a,
          model_used := model, page_count := doc.length, task_id := some t0.task_id }
        (applyCancel { t' with current_step := "AI 분석 중", progress := 90 }) := by
    unfold process_pdf_async
    rw [hrun]
    have f1 : ¬ ((extractEvents doc).length + 2 = (extractEvents doc).length) := by omega
    have f2 : ¬ ((extractEvents doc).length + 2 = (extractEvents doc).length + 1) := by
      omega
    have f3 : (extractEvents doc).length + 1 + 1 = (extractEvents doc).length + 2 := by
      omega
    have f4 : ¬ ((extractEvents doc).length + 2 + 1 ≤ (extractEvents doc).length + 2) := by
      omega
    simp only [Nat.zero_add]
    simp [beforeAction, finalize, Option.some.injEq, f3, f1, f2, f4, hnc, ha]
  rw [hE]
  exact ⟨rfl, rfl, rfl⟩

/-- C3 witness: the amended theorem at the 1-page fixture. -/
theorem C3_completion_overwrites_cancel_witness :
    (process_pdf_async okImgGen okTxtGen c1doc "f.pdf" "m" none
        (some ((extractEvents c1doc).length + 2)) (initTask "tid" "f.pdf" "m")).status
      = "completed" ∧
    (process_pdf_async okImgGen okTxtGen c1doc "f.pdf" "m" none
        (some ((extractEvents c1doc).length + 2)) (initTask "tid" "f.pdf" "m")).progress
      = 100 ∧
    (process_pdf_async okImgGen okTxtGen c1doc "f.pdf" "m" none
        (some ((extractEvents c1doc).length + 2)) (initTask "tid" "f.pdf" "m")).result
      = some { filename := "f.pdf", text_content := extractedText okImgGen c1doc,
               analysis := "요약", model_used := "m", page_count := c1doc.length,
               task_id := some (initTask "tid" "f.pdf" "m").task_id } :=
  C3_completion_overwrites_cancel okImgGen okTxtGen c1doc "f.pdf" "m" none
    (initTask "tid" "f.pdf" "m") "요약" rfl rfl

/-- C4 counterexample: the claim says the progress update is a no-op on a
task whose status is terminal.  On a task in status "cancelled" the code's
bare dict writes overwrite progress and current_step anyway. -/
theorem C4_counterexample :
    updateProgressWrite [("x", c4task)] "x" 77 "s2" =
      Except.ok [("x", { c4task with progress := 77, current_step := "s2" })] ∧
    c4task.status = "cancelled" ∧
    ({ c4task with progress := 77, current_step := "s2" } : Task) ≠ c4task := by
  refine ⟨rfl, rfl, by decide⟩

/-- C4 (amended): the registry progress update overwrites exactly progress
and current_step of a present task regardless of its status — terminal
included — and never changes status (the other fields are untouched); on an
absent id it raises KeyError instead of being a no-op. -/
theorem C4_update_semantics (reg : Registry) (id : String) (prog : Nat)
    (stepStr : String) :
    (lookupTask reg id = none →
      updateProgressWrite reg id prog stepStr = Except.error "KeyError") ∧
    ∀ t, lookupTask reg id = some t →
      updateProgressWrite reg id prog stepStr =
        Except.ok (updateTask reg id { t with progress := prog, current_step := stepStr }) ∧
      lookupTask (updateTask reg id { t with progress := prog, current_step := stepStr }) id
        = some { t with progress := prog, current_step := stepStr } := by
  constructor
  · intro h
    unfold updateProgressWrite
    rw [h]
  · intro t h
    refine ⟨?_, lookup_updateTask reg id t _ h⟩
    unfold updateProgressWrite
    rw [h]

/-- C4 witness: the amended semantics at a concrete registry. -/
theorem C4_update_semantics_witness :
    updateProgressWrite c5reg "a" 33 "w" =
      Except.ok (updateTask c5reg "a"
        { initTask "a" "f.pdf" "m" with progress := 33, current_step := "w" }) ∧
    lookupTask (updateTask c5reg "a"
        { initTask "a" "f.pdf" "m" with progress := 33, current_step := "w" }) "a" =
      some { initTask "a" "f.pdf" "m" with progress := 33, current_step := "w" } :=
  (C4_update_semantics c5reg "a" 33 "w").2 (initTask "a" "f.pdf" "m") rfl

/-- C5: cancelling a present task in status "processing" transitions it to
"cancelled" (HTTP 200), while cancelling a present task whose status is
already terminal (completed/failed/cancelled) answers HTTP 400 and leaves
the registry unchanged. -/
theorem C5_cancel_endpoint (reg : Registry) (id : String) (t : Task)
    (h : lookupTask reg id = some t) :
    (t.status = "processing" →
      (cancel_task reg id).2 = ApiResult.ok "Task cancelled successfully" ∧
      lookupTask (cancel_task reg id).1 id =
        some { t with status := "cancelled", current_step := "사용자에 의해 취소됨" }) ∧
    (t.status ∈ ["completed", "failed", "cancelled"] →
      (cancel_task reg id).2 = ApiResult.httpError 400 "Task cannot be cancelled" ∧
      (cancel_task reg id).1 = reg) := by
  constructor
  · intro hp
    have hterm : ¬ t.status ∈ (["completed", "failed", "cancelled"] : List String) := by
      rw [hp]
      decide
    have hE : cancel_task reg id =
        (updateTask reg id
            { t with status := "cancelled", current_step := "사용자에 의해 취소됨" },
          ApiResult.ok "Task cancelled successfully") := by
      simp [cancel_task, h, hterm]
    rw [hE]
    exact ⟨rfl, lookup_updateTask reg id t _ h⟩
  · intro hterm
    have hE : cancel_task reg id =
        (reg, ApiResult.httpError 400 "Task cannot be cancelled") := by
      simp [cancel_task, h, hterm]
    rw [hE]
    exact ⟨rfl, rfl⟩

/-- C5 witness: cancelling a fresh processing task at a concrete registry. -/
theorem C5_cancel_endpoint_witness :
    (cancel_task c5reg "a").2 = ApiResult.ok "Task cancelled successfully" ∧
    lookupTask (cancel_task c5reg "a").1 "a" =
      some { initTask "a" "f.pdf" "m" with
             status := "cancelled", current_step := "사용자에 의해 취소됨" } :=
  (C5_cancel_endpoint c5reg "a" (initTask "a" "f.pdf" "m") rfl).1 rfl

/-- C6: a successfully parsed document with P pages and zero embedded
images yields page_count = P, and the accumulated text contains exactly P
page-boundary markers, in order for pages 1..P (and no image sections at
all). -/
theorem C6_zero_image_roundtrip (gen : String → Except String String)
    (doc : List PageRecord) (h : ∀ p ∈ doc, p.images = []) :
    (extract_images_from_pdf_and_analyze gen doc).2 = doc.length ∧
    pageMarkersOf (docChunks gen doc) = List.range' 1 doc.length ∧
    ∀ c ∈ docChunks gen doc, c.isImageChunk = false := by
  refine ⟨rfl, pageMarkersOf_docChunksAux gen doc 1, ?_⟩
  exact noImageChunks_docChunksAux gen doc h 1

/-- C6 witness: the round trip at a concrete 2-page image-free document. -/
theorem C6_zero_image_roundtrip_witness :
    (∀ p ∈ c6doc, p.images = []) ∧
    (extract_images_from_pdf_and_analyze okImgGen c6doc).2 = c6doc.length ∧
    pageMarkersOf (docChunks okImgGen c6doc) = List.range' 1 c6doc.length :=
  ⟨by decide, (C6_zero_image_roundtrip okImgGen c6doc (by decide)).1,
    (C6_zero_image_roundtrip okImgGen c6doc (by decide)).2.1⟩

/-- C7 counterexample: the claim promises a failure-noted image section for
EVERY embedded image when the description call always fails.  For a CMYK
image (`pix.n - pix.alpha = 4`) the code never calls the model and appends
no section and no failure note at all, while the task still completes: the
output of this 1-page, 1-CMYK-image document contains no image chunk
whatsoever. -/
theorem C7_counterexample :
    (process_pdf_async (fun _ => Except.error "boom") okTxtGen c7cxDoc "f.pdf" "m"
        none none (initTask "t7c" "f.pdf" "m")).status = "completed" ∧
    (∀ c ∈ docChunks (fun _ => Except.error "boom") c7cxDoc,
      c.isImageChunk = false) := by
  refine ⟨?_, ?_⟩ <;> decide

/-- C7 (amended): when every description call raises a ModelError, the
pipeline still completes and the task reaches "completed"; the accumulated
text contains a failure-noted section for every image that is submitted for
description (pixmap built, fewer than 4 non-alpha components), and a
failure note for every image whose pixmap raises — but images with 4 or
more non-alpha components are silently skipped (see C10). -/
theorem C7_model_failures_degrade (errOf : String → String)
    (txtGen : String → String → Except String String)
    (doc : List PageRecord) (fn model id : String) (custom : Option String)
    (a : String)
    (ha : analyze_text_with_ollama txtGen
        (extractedText (fun s => Except.error (errOf s)) doc) model custom
      = Except.ok a) :
    (process_pdf_async (fun s => Except.error (errOf s)) txtGen doc fn model custom
        none (initTask id fn model)).status = "completed" ∧
    (process_pdf_async (fun s => Except.error (errOf s)) txtGen doc fn model custom
        none (initTask id fn model)).result =
      some { filename := fn,
             text_content := extractedText (fun s => Except.error (errOf s)) doc,
             analysis := a, model_used := model, page_count := doc.length,
             task_id := some id } ∧
    ∀ (j : Nat) (p : PageRecord), doc[j]? = some p →
      ∀ (l : Nat) (img : PDFImage), p.images[l]? = some img →
      (img.pixErr = none → img.n - img.alpha < 4 →
        Chunk.imageSection (l + 1) ("이미지 분석 실패: " ++ errOf img.data)
          ∈ docChunks (fun s => Except.error (errOf s)) doc) ∧
      (∀ e, img.pixErr = some e →
        Chunk.imageFailure (l + 1) e
          ∈ docChunks (fun s => Except.error (errOf s)) doc) := by
  obtain ⟨h1, h2, h3, h4⟩ :=
    run_async_ok (fun s => Except.error (errOf s)) txtGen doc fn model custom
      (initTask id fn model) a rfl ha
  refine ⟨h1, by simpa [initTask] using h3, ?_⟩
  intro j p hp l img himg
  constructor
  · intro hpix hlt
    have hchunk : Chunk.imageSection (l + 1) ("이미지 분석 실패: " ++ errOf img.data)
        ∈ imageChunk (fun s => Except.error (errOf s)) (0 + l) img := by
      simp [imageChunk, hpix, hlt, analyze_image_with_ollama]
    exact mem_docChunksAux_of_page _ doc 1 j p hp _
      (mem_pageChunks_of_imagesChunks _ (1 + j) p _
        (mem_imagesChunks _ p.images 0 l img himg _ hchunk))
  · intro e hpix
    have hchunk : Chunk.imageFailure (l + 1) e
        ∈ imageChunk (fun s => Except.error (errOf s)) (0 + l) img := by
      simp [imageChunk, hpix]
    exact mem_docChunksAux_of_page _ doc 1 j p hp _
      (mem_pageChunks_of_imagesChunks _ (1 + j) p _
        (mem_imagesChunks _ p.images 0 l img himg _ hchunk))

/-- C7 witness: the amended theorem at a 1-page document with one RGB image
and an always-failing description oracle. -/
theorem C7_model_failures_degrade_witness :
    (process_pdf_async (fun s => Except.error ((fun _ => "boom") s)) okTxtGen c7wDoc
        "f.pdf" "m" none none (initTask "t7" "f.pdf" "m")).status = "completed" ∧
    Chunk.imageSection 1 ("이미지 분석 실패: " ++ (fun _ => "boom") c7wImg.data)
      ∈ docChunks (fun s => Except.error ((fun _ => "boom") s)) c7wDoc :=
  ⟨(C7_model_failures_degrade (fun _ => "boom") okTxtGen c7wDoc "f.pdf" "m" "t7"
      none "요약" rfl).1,
    ((C7_model_failures_degrade (fun _ => "boom") okTxtGen c7wDoc "f.pdf" "m" "t7"
      none "요약" rfl).2.2 0 _ rfl 0 c7wImg rfl).1 rfl (by decide)⟩

/-- C8: when the final summarization call raises a ModelError, the async
run aborts: the task ends in status "failed", its error field holds the
non-empty `str(HTTPException(500, ...))` and its result field stays
absent. -/
theorem C8_summarize_failure (imgGen : String → Except String String)
    (txtGen : String → String → Except String String)
    (doc : List PageRecord) (fn model id : String) (custom : Option String)
    (d : String)
    (ha : analyze_text_with_ollama txtGen (extractedText imgGen doc) model custom
      = Except.error d) :
    (process_pdf_async imgGen txtGen doc fn model custom none
        (initTask id fn model)).status = "failed" ∧
    (process_pdf_async imgGen txtGen doc fn model custom none
        (initTask id fn model)).error = some ("500: " ++ d) ∧
    ¬ ("500: " ++ d) = "" ∧
    (process_pdf_async imgGen txtGen doc fn model custom none
        (initTask id fn model)).result = none := by
  obtain ⟨h1, h2, h3, h4⟩ :=
    run_async_err imgGen txtGen doc fn model custom (initTask id fn model) d rfl ha
  refine ⟨h1, h4, ?_, by simpa [initTask] using h3⟩
  intro hne
  have hl := congrArg String.length hne
  rw [String.length_append] at hl
  have h0 : ("" : String).length = 0 := rfl
  have h5 : ("500: " : String).length = 5 := rfl
  rw [h0, h5] at hl
  omega

/-- C8 witness: a concrete run with an always-failing summarizer. -/
theorem C8_summarize_failure_witness :
    (process_pdf_async okImgGen failTxtGen c1doc "f.pdf" "m" none none
        (initTask "t8" "f.pdf" "m")).status = "failed" ∧
    (process_pdf_async okImgGen failTxtGen c1doc "f.pdf" "m" none none
        (initTask "t8" "f.pdf" "m")).error =
      some ("500: " ++ ("Failed to analyze text with Ollama: " ++ "model down")) ∧
    ¬ ("500: " ++ ("Failed to analyze text with Ollama: " ++ "model down")) = "" ∧
    (process_pdf_async okImgGen failTxtGen c1doc "f.pdf" "m" none none
        (initTask "t8" "f.pdf" "m")).result = none :=
  C8_summarize_failure okImgGen failTxtGen c1doc "f.pdf" "m" "t8" none
    ("Failed to analyze text with Ollama: " ++ "model down") rfl

/-- C9 counterexample: the claim says the cancel operation writes the
status field only and never current_step; cancelling a fresh processing
task also overwrites current_step with "사용자에 의해 취소됨". -/
theorem C9_counterexample :
    lookupTask (cancel_task c9reg "t1").1 "t1" =
      some { initTask "t1" "a.pdf" "m" with
             status := "cancelled", current_step := "사용자에 의해 취소됨" } ∧
    ¬ (initTask "t1" "a.pdf" "m").current_step = "사용자에 의해 취소됨" := by
  refine ⟨?_, ?_⟩ <;> decide

/-- C9 (amended): the cancel operation writes status and current_step only:
progress, result, error, filename, model and task_id of the task are
unchanged by a cancel, whatever the task's status. -/
theorem C9_cancel_frame (reg : Registry) (id : String) (t : Task)
    (h : lookupTask reg id = some t) :
    (lookupTask (cancel_task reg id).1 id).map Task.progress = some t.progress ∧
    (lookupTask (cancel_task reg id).1 id).map Task.result = some t.result ∧
    (lookupTask (cancel_task reg id).1 id).map Task.error = some t.error ∧
    (lookupTask (cancel_task reg id).1 id).map Task.filename = some t.filename ∧
    (lookupTask (cancel_task reg id).1 id).map Task.model = some t.model ∧
    (lookupTask (cancel_task reg id).1 id).map Task.task_id = some t.task_id := by
  by_cases hterm : t.status ∈ (["completed", "failed", "cancelled"] : List String)
  · have hE : cancel_task reg id =
        (reg, ApiResult.httpError 400 "Task cannot be cancelled") := by
      simp [cancel_task, h, hterm]
    rw [hE]
    simp [h]
  · have hE : cancel_task reg id =
        (updateTask reg id
            { t with status := "cancelled", current_step := "사용자에 의해 취소됨" },
          ApiResult.ok "Task cancelled successfully") := by
      simp [cancel_task, h, hterm]
    rw [hE]
    simp [lookup_updateTask reg id t _ h]

/-- C9 witness: the frame condition at a concrete registry. -/
theorem C9_cancel_frame_witness :
    (lookupTask (cancel_task c9reg "t1").1 "t1").map Task.progress =
      some (initTask "t1" "a.pdf" "m").progress ∧
    (lookupTask (cancel_task c9reg "t1").1 "t1").map Task.result =
      some (initTask "t1" "a.pdf" "m").result ∧
    (lookupTask (cancel_task c9reg "t1").1 "t1").map Task.error =
      some (initTask "t1" "a.pdf" "m").error ∧
    (lookupTask (cancel_task c9reg "t1").1 "t1").map Task.filename =
      some (initTask "t1" "a.pdf" "m").filename ∧
    (lookupTask (cancel_task c9reg "t1").1 "t1").map Task.model =
      some (initTask "t1" "a.pdf" "m").model ∧
    (lookupTask (cancel_task c9reg "t1").1 "t1").map Task.task_id =
      some (initTask "t1" "a.pdf" "m").task_id :=
  C9_cancel_frame c9reg "t1" (initTask "t1" "a.pdf" "m") rfl

/-- C10: an embedded image whose pixmap is built successfully but has four
or more non-alpha colour components is silently skipped: no model call is
made for it, no section and no failure note is appended, and the rest of
the image loop runs exactly as it would, with the other images keeping
their original indices. -/
theorem C10_cmyk_skip (gen : String → Except String String) (b : Nat)
    (pre post : List PDFImage) (img : PDFImage)
    (hpix : img.pixErr = none) (hcomp : 4 ≤ img.n - img.alpha) :
    imageChunk gen b img = [] ∧ imageCall img = [] ∧
    imagesChunks gen b (pre ++ img :: post) =
      imagesChunks gen b pre ++ imagesChunks gen (b + pre.length + 1) post ∧
    imagesCalls (pre ++ img :: post) = imagesCalls pre ++ imagesCalls post := by
  have hnlt : ¬ (img.n - img.alpha < 4) := by omega
  have hch : ∀ k, imageChunk gen k img = [] := by
    intro k
    simp [imageChunk, hpix, hnlt]
  have hcl : imageCall img = [] := by
    simp [imageCall, hpix, hnlt]
  refine ⟨hch b, hcl, ?_, ?_⟩
  · rw [imagesChunks_append]
    simp only [imagesChunks, hch, List.nil_append]
  · rw [imagesCalls_append]
    simp only [imagesCalls, hcl, List.nil_append]

/-- C10 witness: skipping a concrete CMYK image placed before an RGB one. -/
theorem C10_cmyk_skip_witness :
    c10cmyk.pixErr = none ∧ 4 ≤ c10cmyk.n - c10cmyk.alpha ∧
    imageChunk okImgGen 0 c10cmyk = [] ∧ imageCall c10cmyk = [] ∧
    imagesChunks okImgGen 0 (([] : List PDFImage) ++ c10cmyk :: [c10rgb]) =
      imagesChunks okImgGen 0 [] ++
        imagesChunks okImgGen (0 + ([] : List PDFImage).length + 1) [c10rgb] ∧
    imagesCalls (([] : List PDFImage) ++ c10cmyk :: [c10rgb]) =
      imagesCalls [] ++ imagesCalls [c10rgb] := by
  have h := C10_cmyk_skip okImgGen 0 [] [c10rgb] c10cmyk rfl (by decide)
  exact ⟨rfl, by decide, h.1, h.2.1, h.2.2.1, h.2.2.2⟩

end PdfParser
